import Mathlib

/-!
Verification development for the two-party ephemeral chat relay
(`privatechat`): a shallow embedding of the server-side message store
(`netlify/functions/lib/MessageStore.js`), the socket-event coordinator
(`SocketHandler`) and the token service (`netlify/functions/lib/AuthService.js`),
together with theorems settling the specification claims about them.

Conventions of the embedding:
- JS arrays become `List`; the JS `Set` of active connections becomes a
  duplicate-free `List String` (insertion appends only when absent);
  the JS `Map` from socket id to username becomes an association list with
  `mapSet` overwriting in place, as `Map.set` does.
- Handlers are pure state transformers `State -> State × List Emit`, where an
  `Emit` records the target (`socket.emit` = `toSelf`,
  `socket.to(room).emit` = `toOthers`, `io.to(room).emit` = `toAll`),
  the event name and the payload.
- Server-generated nondeterminism (message ids, timestamps, signed tokens)
  is passed in explicitly as parameters.
-/

namespace PrivateChat

/-- `Message` as built in `SocketHandler.handleMessage` and stored by
`MessageStore` (fields `id, senderKey, type, content, timestamp, seen,
seenOnce`). -/
structure Message where
  id : String
  senderKey : String
  type : String
  content : String
  timestamp : String
  seen : Bool
  seenOnce : Bool
deriving DecidableEq, Repr

/-- The in-memory store: `messages` (newest first) and the set of
`activeConnections` (modelled as a duplicate-free list). -/
structure MessageStore where
  messages : List Message
  activeConnections : List String
deriving DecidableEq, Repr

/-- `this.MAX_MESSAGES = 10` in the `MessageStore` constructor. -/
def MAX_MESSAGES : Nat := 10

/-- The freshly constructed store: empty message list, no connections. -/
def initialStore : MessageStore := { messages := [], activeConnections := [] }

/-- `MessageStore.addMessage`: `unshift` the message (newest first), then
`slice(0, MAX_MESSAGES)` when the length exceeds the cap. -/
def addMessage (s : MessageStore) (message : Message) : MessageStore :=
  let msgs := message :: s.messages
  { s with messages := if msgs.length > MAX_MESSAGES then msgs.take MAX_MESSAGES else msgs }

/-- `MessageStore.getMessages`: returns a copy of the internal array, in the
internal (newest-first) order. -/
def getMessages (s : MessageStore) : List Message :=
  s.messages

/-- The array part of `MessageStore.removeSeenOnceMessage`: `findIndex` on
the id; when found (`index !== -1`) and `messages[index].seenOnce` holds,
`splice(index, 1)` and report `true`, otherwise report `false`. -/
def removeSeenOnceCore (l : List Message) (messageId : String) : List Message × Bool :=
  match l.findIdx? (fun m => m.id == messageId) with
  | some index =>
      match l.get? index with
      | some message =>
          if message.seenOnce then (l.eraseIdx index, true)
          else (l, false)
      | none => (l, false)
  | none => (l, false)

/-- `MessageStore.removeSeenOnceMessage`: `removeSeenOnceCore` applied to
`this.messages`, returning the updated store and whether a removal
happened. -/
def removeSeenOnceMessage (s : MessageStore) (messageId : String) : MessageStore × Bool :=
  let r := removeSeenOnceCore s.messages messageId
  ({ s with messages := r.1 }, r.2)

/-- `MessageStore.clearMessages`: empties the message list. -/
def clearMessages (s : MessageStore) : MessageStore :=
  { s with messages := [] }

/-- `MessageStore.addConnection`: JS `Set.add` — appends the user id only if
not already present. -/
def addConnection (s : MessageStore) (userId : String) : MessageStore :=
  { s with activeConnections :=
      if userId ∈ s.activeConnections then s.activeConnections
      else s.activeConnections ++ [userId] }

/-- `MessageStore.removeConnection`: JS `Set.delete`. -/
def removeConnection (s : MessageStore) (userId : String) : MessageStore :=
  { s with activeConnections := s.activeConnections.erase userId }

/-- `MessageStore.getConnectionCount` (= `getActiveConnections`): `Set.size`. -/
def getConnectionCount (s : MessageStore) : Nat :=
  s.activeConnections.length

/-- `MessageStore.hasConnection`: JS `Set.has`. -/
def hasConnection (s : MessageStore) (userId : String) : Bool :=
  s.activeConnections.contains userId

/-! ## AuthService credential table (`AuthService.js`) -/

/-- `VALID_KEYS = ['Chaithu143', 'Geethu143']`. -/
def VALID_KEYS : List String := ["Chaithu143", "Geethu143"]

/-- `AuthService.validateSecretKey`. -/
def validateSecretKey (key : String) : Bool :=
  VALID_KEYS.contains key

/-- `AuthService.getUsername`: `USER_MAPPING[secretKey] || ''`. -/
def getUsername (secretKey : String) : String :=
  if secretKey = "Chaithu143" then "Chaitanya"
  else if secretKey = "Geethu143" then "Geetha"
  else ""

/-! ## Emitted events

`socket.emit` goes to the originating connection, `socket.to('chat-room')`
to every other room member, `io.to('chat-room')` to every room member. -/

inductive Target where
  | toSelf
  | toOthers
  | toAll
deriving DecidableEq, Repr

/-- The payload shapes the handlers actually emit. -/
inductive Payload where
  | errorMsg (error : String)
  | msg (m : Message)
  | msgId (messageId : String)
  | history (msgs : List Message)
  | userRef (user : String)
  | loginSuccess (token : String) (user : String)
deriving DecidableEq, Repr

structure Emit where
  target : Target
  event : String
  payload : Payload
deriving DecidableEq, Repr

/-! ## Association-list rendering of the `connectedUsers` Map -/

/-- JS `Map.set`: overwrite in place when the key exists, append otherwise. -/
def mapSet : List (String × String) → String → String → List (String × String)
  | [], k, v => [(k, v)]
  | (k₀, v₀) :: rest, k, v =>
      if k₀ = k then (k, v) :: rest else (k₀, v₀) :: mapSet rest k v

/-- JS `Map.get`: `none` models `undefined`. -/
def mapGet : List (String × String) → String → Option String
  | [], _ => none
  | (k₀, v₀) :: rest, k => if k₀ = k then some v₀ else mapGet rest k

/-- JS `Map.delete`: removes the (unique) entry for the key. -/
def mapDelete : List (String × String) → String → List (String × String)
  | [], _ => []
  | (k₀, v₀) :: rest, k =>
      if k₀ = k then rest else (k₀, v₀) :: mapDelete rest k

/-- State owned by one `SocketHandler` instance: the `connectedUsers` map
(socket id → username) plus the shared `MessageStore`. -/
structure ServerState where
  connectedUsers : List (String × String)
  store : MessageStore
deriving DecidableEq, Repr

def initialState : ServerState :=
  { connectedUsers := [], store := initialStore }

/-! ## SocketHandler event handlers -/

/-- `SocketHandler.handleLogin`. `genToken` stands for
`authService.generateToken` (the signed token plays no role in the control
flow, so it is passed in as a function). -/
def handleLogin (genToken : String → String) (st : ServerState)
    (socketId secretKey : String) : ServerState × List Emit :=
  if !validateSecretKey secretKey then
    (st, [⟨.toSelf, "login-error", .errorMsg "Invalid credentials"⟩])
  else
    let username := getUsername secretKey
    if hasConnection st.store username then
      (st, [⟨.toSelf, "login-error", .errorMsg "Invalid credentials"⟩])
    else if getConnectionCount st.store ≥ 2 then
      (st, [⟨.toSelf, "login-error", .errorMsg "Room is full"⟩])
    else
      ({ connectedUsers := mapSet st.connectedUsers socketId username,
         store := addConnection st.store username },
       [⟨.toSelf, "login-success", .loginSuccess (genToken secretKey) username⟩])

/-- `SocketHandler.handleJoin`: history to the joiner, `user-joined` to the
other connection. -/
def handleJoin (st : ServerState) (socketId : String) : ServerState × List Emit :=
  match mapGet st.connectedUsers socketId with
  | none => (st, [⟨.toSelf, "error", .errorMsg "Not authenticated"⟩])
  | some user =>
      (st, [⟨.toSelf, "messages-history", .history (getMessages st.store)⟩,
            ⟨.toOthers, "user-joined", .userRef user⟩])

/-- The destructured `message` event payload
`{ type, content, seenOnce = false }`; `none` models an absent field. -/
structure MessageData where
  type : Option String
  content : Option String
  seenOnce : Option Bool
deriving DecidableEq, Repr

/-- JS truthiness of an optional string field (`!type`, `!content`):
absent (`undefined`) and the empty string are both falsy. -/
def strTruthy : Option String → Bool
  | none => false
  | some s => s ≠ ""

/-- One `text.replace(/c/g, rep)` step for a single-character pattern. -/
def replaceAll (pat : Char) (rep : List Char) : List Char → List Char
  | [] => []
  | c :: cs => (if c = pat then rep else [c]) ++ replaceAll pat rep cs

/-- `SocketHandler.sanitizeText`: the five sequential global replaces,
applied in source order (`<`, `>`, `"`, `'`, `/`). -/
def sanitizeText (text : String) : String :=
  (replaceAll '/' ("&#x2F;".toList)
    (replaceAll '\x27' ("&#x27;".toList)
      (replaceAll '"' ("&quot;".toList)
        (replaceAll '>' ("&gt;".toList)
          (replaceAll '<' ("&lt;".toList) text.toList))))).asString

/-- `SocketHandler.handleMessage`. `genId` stands for `generateMessageId()`
and `now` for `new Date().toISOString()`. The image-size test
`(content.length * 3) / 4 > 3 * 1024 * 1024` (exact in JS floats) is rendered
over `Nat` as `3 * content.length > 4 * (3 * 1024 * 1024)`. -/
def handleMessage (genId now : String) (st : ServerState) (socketId : String)
    (data : MessageData) : ServerState × List Emit :=
  match mapGet st.connectedUsers socketId with
  | none => (st, [⟨.toSelf, "error", .errorMsg "Not authenticated"⟩])
  | some user =>
      if !(strTruthy data.type && strTruthy data.content) then
        (st, [⟨.toSelf, "message-error", .errorMsg "Invalid message data"⟩])
      else
        let ty := data.type.getD ""
        let content := data.content.getD ""
        if ty = "image" ∧ 3 * content.length > 4 * (3 * 1024 * 1024) then
          (st, [⟨.toSelf, "message-error", .errorMsg "Image too large (max 3MB)"⟩])
        else
          let sanitizedContent := if ty = "text" then sanitizeText content else content
          let message : Message :=
            { id := genId, senderKey := user, type := ty,
              content := sanitizedContent, timestamp := now,
              seen := false, seenOnce := data.seenOnce.getD false }
          ({ st with store := addMessage st.store message },
           [⟨.toSelf, "message-ack", .msgId genId⟩,
            ⟨.toAll, "new-message", .msg message⟩])

/-- `SocketHandler.handleSeenOnceViewed`: remove via
`removeSeenOnceMessage`; broadcast `message-removed` only when a removal
happened; silently return when the socket is not logged in. -/
def handleSeenOnceViewed (st : ServerState) (socketId messageId : String) :
    ServerState × List Emit :=
  match mapGet st.connectedUsers socketId with
  | none => (st, [])
  | some _ =>
      let (store₁, removed) := removeSeenOnceMessage st.store messageId
      if removed then
        ({ st with store := store₁ }, [⟨.toAll, "message-removed", .msgId messageId⟩])
      else
        ({ st with store := store₁ }, [])

/-- `SocketHandler.handleDisconnect`: deregister, notify the peer, and clear
the ledger when the connection count has dropped to zero. Unknown sockets
are a no-op. -/
def handleDisconnect (st : ServerState) (socketId : String) : ServerState × List Emit :=
  match mapGet st.connectedUsers socketId with
  | none => (st, [])
  | some user =>
      let store₁ := removeConnection st.store user
      let users₁ := mapDelete st.connectedUsers socketId
      let store₂ := if getConnectionCount store₁ = 0 then clearMessages store₁ else store₁
      ({ connectedUsers := users₁, store := store₂ },
       [⟨.toOthers, "user-left", .userRef user⟩])

/-! ## Operation sequences -/

/-- A sequence of `append`s (`addMessage`) against a store. -/
def runAppends (s : MessageStore) (ms : List Message) : MessageStore :=
  ms.foldl addMessage s

/-- The presence-mutating operations the coordinator performs. -/
inductive Op where
  | login (socketId secretKey : String)
  | disconnect (socketId : String)
deriving DecidableEq, Repr

def applyOp (genToken : String → String) (st : ServerState) : Op → ServerState
  | .login sid key => (handleLogin genToken st sid key).1
  | .disconnect sid => (handleDisconnect st sid).1

def runOps (genToken : String → String) (st : ServerState) (ops : List Op) : ServerState :=
  ops.foldl (applyOp genToken) st

/-! ## Token verification (`AuthService.js`)

`verifyToken` splits the token at the dots into header, payload and
signature, recomputes the HMAC over `header ++ "." ++ payload`, and only then
parses the payload. The HMAC-SHA256 `sign` and the
base64url/`JSON.parse` payload decoding are kept abstract as function
parameters (`signFn`, `decodePayload`); `verifyToken` uses them only through
equality tests and pattern matches, exactly as the source does. -/

/-- The JWT payload built by `generateToken`:
`{ secretKey, username, iat, exp }`. `exp = none` models a payload without
an `exp` field; `exp = some 0` a literal `"exp": 0`. -/
structure TokenPayload where
  secretKey : String
  username : String
  iat : Nat
  exp : Option Nat
deriving DecidableEq, Repr

/-- The three dot-separated parts of a well-formed token
(`parts.length !== 3` throws before anything else). -/
structure Token where
  encodedHeader : String
  encodedPayload : String
  signature : String
deriving DecidableEq, Repr

/-- JS truthiness of `payload.exp`: absent or `0` is falsy. -/
def expTruthy : Option Nat → Bool
  | none => false
  | some e => e ≠ 0

/-- `AuthService.verifyToken` (returning `none` where the source throws):
signature comparison first, then payload parse, then the
`payload.exp && Date.now() >= payload.exp * 1000` expiry guard, then the
`validateSecretKey(payload.secretKey)` check. `now` is `Date.now()` in
milliseconds; `exp` is in seconds. -/
def verifyToken (signFn : String → String)
    (decodePayload : String → Option TokenPayload) (now : Nat) (t : Token) :
    Option TokenPayload :=
  let expectedSignature := signFn (t.encodedHeader ++ "." ++ t.encodedPayload)
  if t.signature ≠ expectedSignature then none
  else
    match decodePayload t.encodedPayload with
    | none => none
    | some payload =>
        if expTruthy payload.exp ∧ (payload.exp.getD 0) * 1000 ≤ now then none
        else if !validateSecretKey payload.secretKey then none
        else some payload

/-! ## Ledger lemmas -/

theorem addMessage_messages (s : MessageStore) (m : Message) :
    (addMessage s m).messages = (m :: s.messages).take MAX_MESSAGES := by
  by_cases h : (m :: s.messages).length > MAX_MESSAGES
  · simp [addMessage, h]
  · simp [addMessage, h, List.take_of_length_le (Nat.le_of_not_lt h)]

theorem take_append_take {α : Type} (a b : List α) (n : Nat) :
    (a ++ b.take n).take n = (a ++ b).take n := by
  rw [List.take_append_eq_append_take, List.take_append_eq_append_take,
    List.take_take, Nat.min_eq_left (Nat.sub_le n a.length)]

theorem runAppends_messages (ms : List Message) (s : MessageStore)
    (hs : s.messages.length ≤ MAX_MESSAGES) :
    (runAppends s ms).messages = (ms.reverse ++ s.messages).take MAX_MESSAGES := by
  induction ms generalizing s with
  | nil => simp [runAppends, List.take_of_length_le hs]
  | cons m ms ih =>
      have hlen : (addMessage s m).messages.length ≤ MAX_MESSAGES := by
        rw [addMessage_messages, List.length_take]
        exact Nat.min_le_left _ _
      have hstep : runAppends s (m :: ms) = runAppends (addMessage s m) ms := rfl
      rw [hstep, ih _ hlen, addMessage_messages, take_append_take]
      simp [List.reverse_cons, List.append_assoc]

/-! ## Concrete test data -/

def testMsg (n : String) : Message :=
  { id := n, senderKey := "Chaitanya", type := "text", content := "hi",
    timestamp := "t0", seen := false, seenOnce := false }

def elevenMessages : List Message :=
  ["m1", "m2", "m3", "m4", "m5", "m6", "m7", "m8", "m9", "m10", "m11"].map testMsg

def fullStore : MessageStore :=
  { messages := ["m10", "m9", "m8", "m7", "m6", "m5", "m4", "m3", "m2", "m1"].map testMsg,
    activeConnections := [] }

def joinState : ServerState :=
  { connectedUsers := [("s1", "Chaitanya")],
    store := runAppends initialStore elevenMessages }

/-! ## Claim C3 -/

/-- C3: over every sequence of appends starting from the fresh store, the
ledger holds at most `MAX_MESSAGES` entries — and exactly the most recently
inserted ones, newest first (`ms.reverse.take MAX_MESSAGES`), so the entries
that go missing are always the oldest-by-insertion, with no dependence on
their `seen`/`seenOnce` state; moreover one insertion into a full ledger
keeps the new head and drops precisely the last (oldest) entry. -/
theorem ledger_bounded_fifo_eviction :
    (∀ ms : List Message,
        (runAppends initialStore ms).messages.length ≤ MAX_MESSAGES ∧
        (runAppends initialStore ms).messages = ms.reverse.take MAX_MESSAGES) ∧
    (∀ (s : MessageStore) (m : Message), s.messages.length = MAX_MESSAGES →
        (addMessage s m).messages = m :: s.messages.dropLast) := by
  constructor
  · intro ms
    have h := runAppends_messages ms initialStore (by simp [initialStore])
    have hnil : initialStore.messages = [] := rfl
    rw [hnil, List.append_nil] at h
    refine ⟨?_, h⟩
    rw [h, List.length_take]
    exact Nat.min_le_left _ _
  · intro s m hlen
    rw [addMessage_messages, List.take_cons (by norm_num [MAX_MESSAGES]),
      List.dropLast_eq_take, hlen]

/-- Witness for C3: a concrete full ledger (ten messages) where appending an
eleventh keeps the newest ten and drops the oldest. -/
theorem ledger_bounded_fifo_eviction_witness :
    fullStore.messages.length = MAX_MESSAGES ∧
    (addMessage fullStore (testMsg "m11")).messages =
      testMsg "m11" :: fullStore.messages.dropLast :=
  ⟨by decide, ledger_bounded_fifo_eviction.2 fullStore (testMsg "m11") (by decide)⟩

/-! ## Claim C1 -/

/-- C1: after appending eleven messages with capacity ten, `getMessages`
(the exact list `handleJoin` emits as `messages-history`) is the ten most
recent in NEWEST-first order — the internal storage order — and is not the
chronological oldest→newest sequence the specification promises: the code
never reverses the list. -/
theorem snapshot_returns_newest_first :
    getMessages (runAppends initialStore elevenMessages) =
      (["m11", "m10", "m9", "m8", "m7", "m6", "m5", "m4", "m3", "m2"].map testMsg) ∧
    getMessages (runAppends initialStore elevenMessages) ≠
      (["m2", "m3", "m4", "m5", "m6", "m7", "m8", "m9", "m10", "m11"].map testMsg) ∧
    (handleJoin joinState "s1").2 =
      [⟨.toSelf, "messages-history",
          .history (["m11", "m10", "m9", "m8", "m7", "m6", "m5", "m4", "m3", "m2"].map testMsg)⟩,
       ⟨.toOthers, "user-joined", .userRef "Chaitanya"⟩] := by
  refine ⟨by decide, by decide, by decide⟩

/-! ## Presence-registry lemmas -/

/-- The registry invariant: no duplicate identity, at most two identities. -/
def presenceInv (st : ServerState) : Prop :=
  st.store.activeConnections.Nodup ∧ st.store.activeConnections.length ≤ 2

theorem hasConnection_false_not_mem {s : MessageStore} {u : String}
    (h : hasConnection s u = false) : u ∉ s.activeConnections := by
  intro hmem
  simp [hasConnection, List.elem_iff, hmem] at h

theorem handleLogin_inv (gt : String → String) (st : ServerState)
    (sid key : String) (h : presenceInv st) :
    presenceInv (handleLogin gt st sid key).1 := by
  obtain ⟨hnd, hlen⟩ := h
  unfold handleLogin
  cases hval : validateSecretKey key with
  | false => simpa [hval] using ⟨hnd, hlen⟩
  | true =>
      cases hhas : hasConnection st.store (getUsername key) with
      | true => simpa [hval, hhas] using ⟨hnd, hlen⟩
      | false =>
          by_cases hcnt : getConnectionCount st.store ≥ 2
          · simpa [hval, hhas, hcnt] using ⟨hnd, hlen⟩
          · have hmem := hasConnection_false_not_mem hhas
            have hc1 : st.store.activeConnections.length ≤ 1 := by
              simp [getConnectionCount] at hcnt
              omega
            refine ⟨?_, ?_⟩ <;>
              simp [hval, hhas, hcnt, addConnection, hmem, List.nodup_append, hnd]
            omega

theorem handleDisconnect_inv (st : ServerState) (sid : String)
    (h : presenceInv st) : presenceInv (handleDisconnect st sid).1 := by
  obtain ⟨hnd, hlen⟩ := h
  unfold handleDisconnect presenceInv
  cases hm : mapGet st.connectedUsers sid with
  | none => exact ⟨hnd, hlen⟩
  | some user =>
      simp only [removeConnection, clearMessages, getConnectionCount]
      split <;>
        exact ⟨hnd.erase user, le_trans (List.length_erase_le user _) hlen⟩

theorem applyOp_inv (gt : String → String) (st : ServerState) (op : Op)
    (h : presenceInv st) : presenceInv (applyOp gt st op) := by
  cases op with
  | login sid key => exact handleLogin_inv gt st sid key h
  | disconnect sid => exact handleDisconnect_inv st sid h

theorem runOps_inv (gt : String → String) (ops : List Op) :
    ∀ st : ServerState, presenceInv st → presenceInv (runOps gt st ops) := by
  induction ops with
  | nil => intro st h; exact h
  | cons op ops ih =>
      intro st h
      exact ih _ (applyOp_inv gt st op h)

/-! ## Claim C2 -/

/-- C2: starting from the fresh state, every sequence of login and
disconnect operations leaves the presence registry duplicate-free with at
most two identities; and a login whose secret resolves to an identity not
yet present, attempted while the registry already holds at least two
identities, is rejected with the `Room is full` error and changes nothing. -/
theorem presence_capacity_invariant :
    (∀ (genToken : String → String) (ops : List Op),
        (runOps genToken initialState ops).store.activeConnections.Nodup ∧
        getConnectionCount (runOps genToken initialState ops).store ≤ 2) ∧
    (∀ (genToken : String → String) (st : ServerState) (sid key : String),
        validateSecretKey key = true →
        hasConnection st.store (getUsername key) = false →
        2 ≤ getConnectionCount st.store →
        handleLogin genToken st sid key =
          (st, [⟨.toSelf, "login-error", .errorMsg "Room is full"⟩])) := by
  constructor
  · intro gt ops
    exact runOps_inv gt ops initialState ⟨List.nodup_nil, by simp [initialState, initialStore]⟩
  · intro gt st sid key hv hc hcnt
    simp [handleLogin, hv, hc, ge_iff_le, hcnt]

def tokenStub : String → String := fun _ => "token"

def roomFullState : ServerState :=
  { connectedUsers := [],
    store := { messages := [], activeConnections := ["userA", "userB"] } }

/-- Witness for C2: a concrete operation sequence (two successful logins, a
rejected duplicate, a disconnect) satisfying the invariant, and a concrete
at-capacity registry where a fresh identity receives `Room is full`. -/
theorem presence_capacity_invariant_witness :
    ((runOps tokenStub initialState
          [.login "s1" "Chaithu143", .login "s2" "Geethu143",
           .login "s3" "Chaithu143", .disconnect "s1"]).store.activeConnections.Nodup ∧
      getConnectionCount (runOps tokenStub initialState
          [.login "s1" "Chaithu143", .login "s2" "Geethu143",
           .login "s3" "Chaithu143", .disconnect "s1"]).store ≤ 2) ∧
    (validateSecretKey "Chaithu143" = true ∧
      hasConnection roomFullState.store (getUsername "Chaithu143") = false ∧
      2 ≤ getConnectionCount roomFullState.store ∧
      handleLogin tokenStub roomFullState "s3" "Chaithu143" =
        (roomFullState, [⟨.toSelf, "login-error", .errorMsg "Room is full"⟩])) :=
  ⟨presence_capacity_invariant.1 tokenStub
      [.login "s1" "Chaithu143", .login "s2" "Geethu143",
       .login "s3" "Chaithu143", .disconnect "s1"],
   by decide, by decide, by decide,
   presence_capacity_invariant.2 tokenStub roomFullState "s3" "Chaithu143"
     (by decide) (by decide) (by decide)⟩

/-! ## Claim C4 -/

def loggedInOnce : ServerState :=
  (handleLogin tokenStub initialState "s1" "Chaithu143").1

/-- C4 counterexample: a third connection logging in with a
valid-but-already-connected secret receives `login-error` with the very same
`Invalid credentials` payload that an unresolvable secret receives — there
is no distinct AlreadyConnected error on the wire (the state is unchanged,
as claimed). -/
theorem duplicate_login_error_counterexample :
    (handleLogin tokenStub loggedInOnce "s2" "Chaithu143").2 =
      [⟨.toSelf, "login-error", .errorMsg "Invalid credentials"⟩] ∧
    (handleLogin tokenStub initialState "s2" "wrong-key").2 =
      [⟨.toSelf, "login-error", .errorMsg "Invalid credentials"⟩] ∧
    (handleLogin tokenStub loggedInOnce "s2" "Chaithu143").1 = loggedInOnce :=
  ⟨by decide, by decide, by decide⟩

/-- C4 (amended): a login whose secret resolves to an identity that already
has a live session is rejected and leaves the state (presence registry
included) unchanged, but the error reported to the originating connection is
the generic `Invalid credentials` message — identical to the unresolvable
secret error and distinct only from `Room is full`. -/
theorem duplicate_login_rejected_unchanged :
    ∀ (genToken : String → String) (st : ServerState) (sid key : String),
      validateSecretKey key = true →
      hasConnection st.store (getUsername key) = true →
      handleLogin genToken st sid key =
        (st, [⟨.toSelf, "login-error", .errorMsg "Invalid credentials"⟩]) := by
  intro gt st sid key hv hc
  simp [handleLogin, hv, hc]

/-- Witness for C4: with `Chaitanya` already connected, a second login with
`Chaithu143` is rejected in place. -/
theorem duplicate_login_rejected_unchanged_witness :
    validateSecretKey "Chaithu143" = true ∧
    hasConnection loggedInOnce.store (getUsername "Chaithu143") = true ∧
    handleLogin tokenStub loggedInOnce "s2" "Chaithu143" =
      (loggedInOnce, [⟨.toSelf, "login-error", .errorMsg "Invalid credentials"⟩]) :=
  ⟨by decide, by decide,
   duplicate_login_rejected_unchanged tokenStub loggedInOnce "s2" "Chaithu143"
     (by decide) (by decide)⟩

/-! ## Claim C6 -/

/-- C6: a disconnect of a logged-in socket clears the ledger exactly when it
brings the connection count to zero, leaves the messages untouched when an
identity remains, and emits one `user-left`; a disconnect of a socket with
no session is a complete no-op (so the clear fires only on the transition to
zero, once). -/
theorem disconnect_clear_iff_empty :
    (∀ (st : ServerState) (sid user : String),
        mapGet st.connectedUsers sid = some user →
        ((getConnectionCount (removeConnection st.store user) = 0 →
            (handleDisconnect st sid).1.store.messages = []) ∧
         (getConnectionCount (removeConnection st.store user) ≠ 0 →
            (handleDisconnect st sid).1.store.messages = st.store.messages) ∧
         (handleDisconnect st sid).2 = [⟨.toOthers, "user-left", .userRef user⟩])) ∧
    (∀ (st : ServerState) (sid : String),
        mapGet st.connectedUsers sid = none →
        handleDisconnect st sid = (st, [])) := by
  constructor
  · intro st sid user hm
    refine ⟨?_, ?_, ?_⟩
    · intro hz
      simp only [handleDisconnect, hm]
      rw [if_pos hz]
      simp [clearMessages]
    · intro hz
      simp only [handleDisconnect, hm]
      rw [if_neg hz]
      rfl
    · simp only [handleDisconnect, hm]
  · intro st sid hm
    simp [handleDisconnect, hm]

def bothConnected : ServerState :=
  { connectedUsers := [("s1", "Chaitanya"), ("s2", "Geetha")],
    store := { messages := [testMsg "m1"], activeConnections := ["Chaitanya", "Geetha"] } }

def afterFirstLeave : ServerState := (handleDisconnect bothConnected "s1").1

/-- Witness for C6: with both participants connected and one stored message,
the first disconnect keeps the message and the second one clears the
ledger. -/
theorem disconnect_clear_iff_empty_witness :
    mapGet bothConnected.connectedUsers "s1" = some "Chaitanya" ∧
    getConnectionCount (removeConnection bothConnected.store "Chaitanya") ≠ 0 ∧
    (handleDisconnect bothConnected "s1").1.store.messages = bothConnected.store.messages ∧
    mapGet afterFirstLeave.connectedUsers "s2" = some "Geetha" ∧
    getConnectionCount (removeConnection afterFirstLeave.store "Geetha") = 0 ∧
    (handleDisconnect afterFirstLeave "s2").1.store.messages = [] :=
  ⟨by decide, by decide,
   (disconnect_clear_iff_empty.1 bothConnected "s1" "Chaitanya" (by decide)).2.1 (by decide),
   by decide, by decide,
   (disconnect_clear_iff_empty.1 afterFirstLeave "s2" "Geetha" (by decide)).1 (by decide)⟩

/-! ## Claim C10 -/

/-- C10: for a joined sender, a `message` payload whose `content` (or whose
`type`) is the empty string takes the same path as one with the field
absent: the sender receives the `Invalid message data` message-error and the
state, ledger included, is unchanged. -/
theorem empty_fields_rejected_as_absent :
    ∀ (genId now : String) (st : ServerState) (sid user : String)
      (t c : Option String) (so : Option Bool),
      mapGet st.connectedUsers sid = some user →
      (handleMessage genId now st sid ⟨t, some "", so⟩ =
          (st, [⟨.toSelf, "message-error", .errorMsg "Invalid message data"⟩]) ∧
       handleMessage genId now st sid ⟨t, some "", so⟩ =
          handleMessage genId now st sid ⟨t, none, so⟩ ∧
       handleMessage genId now st sid ⟨some "", c, so⟩ =
          (st, [⟨.toSelf, "message-error", .errorMsg "Invalid message data"⟩]) ∧
       handleMessage genId now st sid ⟨some "", c, so⟩ =
          handleMessage genId now st sid ⟨none, c, so⟩) := by
  intro genId now st sid user t c so hm
  refine ⟨?_, ?_, ?_, ?_⟩ <;> simp [handleMessage, hm, strTruthy]

def stJoined : ServerState :=
  { connectedUsers := [("s1", "Chaitanya")], store := initialStore }

/-- Witness for C10: a joined sender sending `{type: "text", content: ""}`
gets the `Invalid message data` error and nothing is stored. -/
theorem empty_fields_rejected_as_absent_witness :
    mapGet stJoined.connectedUsers "s1" = some "Chaitanya" ∧
    handleMessage "m1" "t1" stJoined "s1" ⟨some "text", some "", none⟩ =
      (stJoined, [⟨.toSelf, "message-error", .errorMsg "Invalid message data"⟩]) :=
  ⟨rfl,
   (empty_fields_rejected_as_absent "m1" "t1" stJoined "s1" "Chaitanya"
      (some "text") none none rfl).1⟩

/-! ## Sanitization lemmas -/

theorem mem_replaceAll {pat : Char} {rep : List Char} {l : List Char} {c : Char}
    (h : c ∈ replaceAll pat rep l) : c ∈ rep ∨ c ∈ l := by
  induction l with
  | nil => simp [replaceAll] at h
  | cons a as ih =>
      simp only [replaceAll, List.mem_append] at h
      rcases h with h | h
      · by_cases hpa : a = pat
        · rw [if_pos hpa] at h
          exact Or.inl h
        · rw [if_neg hpa] at h
          simp only [List.mem_singleton] at h
          exact Or.inr (h ▸ List.mem_cons_self a as)
      · rcases ih h with h | h
        · exact Or.inl h
        · exact Or.inr (List.mem_cons_of_mem _ h)

theorem pat_not_mem_replaceAll {pat : Char} {rep : List Char}
    (hrep : pat ∉ rep) (l : List Char) : pat ∉ replaceAll pat rep l := by
  induction l with
  | nil => simp [replaceAll]
  | cons a as ih =>
      simp only [replaceAll, List.mem_append]
      rintro (h | h)
      · by_cases hpa : a = pat
        · rw [if_pos hpa] at h
          exact hrep h
        · rw [if_neg hpa] at h
          simp only [List.mem_singleton] at h
          exact hpa h.symm
      · exact ih h

theorem sanitizeText_data (text : String) :
    (sanitizeText text).toList =
      replaceAll '/' ("&#x2F;".toList)
        (replaceAll '\x27' ("&#x27;".toList)
          (replaceAll '"' ("&quot;".toList)
            (replaceAll '>' ("&gt;".toList)
              (replaceAll '<' ("&lt;".toList) text.toList)))) := rfl

theorem sanitizeText_no_markup (text : String) :
    ∀ c ∈ (sanitizeText text).toList,
      c ≠ '<' ∧ c ≠ '>' ∧ c ≠ '"' ∧ c ≠ '\x27' := by
  intro c hc
  rw [sanitizeText_data] at hc
  refine ⟨?_, ?_, ?_, ?_⟩ <;> rintro rfl
  · rcases mem_replaceAll hc with h | h
    · exact absurd h (by decide)
    rcases mem_replaceAll h with h | h
    · exact absurd h (by decide)
    rcases mem_replaceAll h with h | h
    · exact absurd h (by decide)
    rcases mem_replaceAll h with h | h
    · exact absurd h (by decide)
    exact pat_not_mem_replaceAll (by decide) _ h
  · rcases mem_replaceAll hc with h | h
    · exact absurd h (by decide)
    rcases mem_replaceAll h with h | h
    · exact absurd h (by decide)
    rcases mem_replaceAll h with h | h
    · exact absurd h (by decide)
    exact pat_not_mem_replaceAll (by decide) _ h
  · rcases mem_replaceAll hc with h | h
    · exact absurd h (by decide)
    rcases mem_replaceAll h with h | h
    · exact absurd h (by decide)
    exact pat_not_mem_replaceAll (by decide) _ h
  · rcases mem_replaceAll hc with h | h
    · exact absurd h (by decide)
    exact pat_not_mem_replaceAll (by decide) _ h

/-- The message record `handleMessage` builds after validation. -/
def builtMessage (genId user ty content now : String) (so : Option Bool) : Message :=
  { id := genId, senderKey := user, type := ty, content := content,
    timestamp := now, seen := false, seenOnce := so.getD false }

/-! ## Claim C9 -/

/-- C9: a nonempty text message from a joined sender is stored (and
broadcast as `new-message`) with content `sanitizeText content`, and the
sanitized text never contains a `<`, `>`, `"` or `'` character. -/
theorem text_sanitized_before_storage :
    (∀ (genId now : String) (st : ServerState) (sid user c : String) (so : Option Bool),
        mapGet st.connectedUsers sid = some user → c ≠ "" →
        handleMessage genId now st sid ⟨some "text", some c, so⟩ =
          ({ st with store := addMessage st.store (builtMessage genId user "text" (sanitizeText c) now so) },
           [⟨.toSelf, "message-ack", .msgId genId⟩,
            ⟨.toAll, "new-message",
              .msg (builtMessage genId user "text" (sanitizeText c) now so)⟩])) ∧
    (∀ text : String, ∀ ch ∈ (sanitizeText text).toList,
        ch ≠ '<' ∧ ch ≠ '>' ∧ ch ≠ '"' ∧ ch ≠ '\x27') := by
  constructor
  · intro genId now st sid user c so hm hc
    simp [handleMessage, hm, strTruthy, hc, builtMessage]
  · exact sanitizeText_no_markup

/-- Witness for C9: sending `a<b` stores `a&lt;b`, and the angle bracket is
gone from the stored content. -/
theorem text_sanitized_before_storage_witness :
    mapGet stJoined.connectedUsers "s1" = some "Chaitanya" ∧
    "a<b" ≠ "" ∧
    sanitizeText "a<b" = "a&lt;b" ∧
    handleMessage "m1" "t1" stJoined "s1" ⟨some "text", some "a<b", none⟩ =
      ({ stJoined with store := addMessage stJoined.store (builtMessage "m1" "Chaitanya" "text" (sanitizeText "a<b") "t1" none) },
       [⟨.toSelf, "message-ack", .msgId "m1"⟩,
        ⟨.toAll, "new-message",
          .msg (builtMessage "m1" "Chaitanya" "text" (sanitizeText "a<b") "t1" none)⟩]) ∧
    ('a' ∈ (sanitizeText "a<b").toList ∧ 'a' ≠ '<') :=
  ⟨rfl, by decide, by decide,
   text_sanitized_before_storage.1 "m1" "t1" stJoined "s1" "Chaitanya" "a<b" none rfl
     (by decide),
   by decide, (text_sanitized_before_storage.2 "a<b" 'a' (by decide)).1⟩

/-! ## Seen-once removal lemmas -/

theorem removeSeenOnceCore_cons (m : Message) (rest : List Message) (messageId : String) :
    removeSeenOnceCore (m :: rest) messageId =
      if m.id == messageId then
        (if m.seenOnce then (rest, true) else (m :: rest, false))
      else
        (m :: (removeSeenOnceCore rest messageId).1, (removeSeenOnceCore rest messageId).2) := by
  cases h : (m.id == messageId) with
  | true => simp [removeSeenOnceCore, List.findIdx?_cons, h]
  | false =>
      simp only [removeSeenOnceCore, List.findIdx?_cons, h, Bool.false_eq_true, if_false]
      cases hf : rest.findIdx? (fun x => x.id == messageId) with
      | none => simp [hf]
      | some k =>
          cases hk : rest[k]? with
          | none => simp [hf, hk]
          | some message => cases hs : message.seenOnce <;> simp [hf, hk, hs]

theorem removeSeenOnceCore_not_found {l : List Message} {messageId : String}
    (h : ∀ x ∈ l, (x.id == messageId) = false) :
    removeSeenOnceCore l messageId = (l, false) := by
  simp [removeSeenOnceCore, List.findIdx?_eq_none_iff.mpr h]

theorem countP_cons_le_zero {m : Message} {rest : List Message} {messageId : String}
    (h : (m.id == messageId) = true)
    (hcount : (m :: rest).countP (fun x => x.id == messageId) ≤ 1) :
    rest.countP (fun x => x.id == messageId) = 0 := by
  rw [List.countP_cons] at hcount
  simp only [h, if_true] at hcount
  omega

theorem countP_cons_le_tail {m : Message} {rest : List Message} {messageId : String}
    (hcount : (m :: rest).countP (fun x => x.id == messageId) ≤ 1) :
    rest.countP (fun x => x.id == messageId) ≤ 1 := by
  rw [List.countP_cons] at hcount
  omega

theorem removeSeenOnceCore_idem {messageId : String} :
    ∀ l : List Message, l.countP (fun m => m.id == messageId) ≤ 1 →
      removeSeenOnceCore (removeSeenOnceCore l messageId).1 messageId =
        ((removeSeenOnceCore l messageId).1, false) := by
  intro l
  induction l with
  | nil => intro _; rfl
  | cons m rest ih =>
      intro hcount
      rw [removeSeenOnceCore_cons]
      cases h : (m.id == messageId) with
      | true =>
          cases hs : m.seenOnce with
          | true =>
              simp only [h, hs, if_true]
              have hz := countP_cons_le_zero h hcount
              exact removeSeenOnceCore_not_found
                (fun x hx => by simpa using List.countP_eq_zero.mp hz x hx)
          | false =>
              simp only [h, hs, if_true, Bool.false_eq_true, if_false]
              rw [removeSeenOnceCore_cons]
              simp [h, hs]
      | false =>
          simp only [h, Bool.false_eq_true, if_false]
          rw [removeSeenOnceCore_cons]
          simp only [h, Bool.false_eq_true, if_false]
          rw [ih (countP_cons_le_tail hcount)]

theorem removeSeenOnceCore_true_iff {messageId : String} :
    ∀ l : List Message, l.countP (fun m => m.id == messageId) ≤ 1 →
      ((removeSeenOnceCore l messageId).2 = true ↔
        ∃ m ∈ l, m.id = messageId ∧ m.seenOnce = true) := by
  intro l
  induction l with
  | nil => intro _; simp [removeSeenOnceCore]
  | cons m rest ih =>
      intro hcount
      rw [removeSeenOnceCore_cons]
      cases h : (m.id == messageId) with
      | true =>
          have hid : m.id = messageId := by simpa using h
          cases hs : m.seenOnce with
          | true =>
              simp only [h, hs, if_true]
              constructor
              · intro _
                exact ⟨m, List.mem_cons_self m rest, hid, hs⟩
              · intro _
                trivial
          | false =>
              simp only [h, hs, if_true, Bool.false_eq_true, if_false]
              constructor
              · intro hfalse
                exact absurd hfalse (by simp)
              · rintro ⟨x, hx, hxid, hxs⟩
                rcases List.mem_cons.mp hx with rfl | hx
                · rw [hs] at hxs
                  exact absurd hxs (by simp)
                · have hz := countP_cons_le_zero h hcount
                  have := List.countP_eq_zero.mp hz x hx
                  rw [hxid] at this
                  simp at this
      | false =>
          have hid : m.id ≠ messageId := by simpa using h
          simp only [h, Bool.false_eq_true, if_false]
          rw [ih (countP_cons_le_tail hcount)]
          constructor
          · rintro ⟨x, hx, hxid, hxs⟩
            exact ⟨x, List.mem_cons_of_mem m hx, hxid, hxs⟩
          · rintro ⟨x, hx, hxid, hxs⟩
            rcases List.mem_cons.mp hx with rfl | hx
            · exact absurd hxid hid
            · exact ⟨x, hx, hxid, hxs⟩

theorem removeSeenOnceCore_false_eq {messageId : String} :
    ∀ l : List Message, (removeSeenOnceCore l messageId).2 = false →
      (removeSeenOnceCore l messageId).1 = l := by
  intro l
  induction l with
  | nil => intro _; rfl
  | cons m rest ih =>
      rw [removeSeenOnceCore_cons]
      cases h : (m.id == messageId) with
      | true =>
          cases hs : m.seenOnce with
          | true => simp [h, hs]
          | false => simp [h, hs]
      | false =>
          simp only [h, Bool.false_eq_true, if_false]
          intro hr
          rw [ih hr]

theorem removeSeenOnceCore_true_length {messageId : String} :
    ∀ l : List Message, (removeSeenOnceCore l messageId).2 = true →
      (removeSeenOnceCore l messageId).1.length + 1 = l.length := by
  intro l
  induction l with
  | nil => intro hr; simp [removeSeenOnceCore] at hr
  | cons m rest ih =>
      rw [removeSeenOnceCore_cons]
      cases h : (m.id == messageId) with
      | true =>
          cases hs : m.seenOnce with
          | true => intro _; simp
          | false => simp [h, hs]
      | false =>
          simp only [h, Bool.false_eq_true, if_false]
          intro hr
          have := ih hr
          simp only [List.length_cons]
          omega

/-! ## Claim C5 -/

/-- C5: provided message ids are unique in the ledger (at most one entry per
id), `removeSeenOnceMessage` is idempotent — the second call for the same id
leaves the store unchanged and returns `false` — and it returns `true`
exactly when a message with that id and `seenOnce = true` is present; an
unsuccessful call changes nothing, a successful one removes exactly one
entry; and `handleSeenOnceViewed` broadcasts exactly one `message-removed`
when the removal happened and nothing otherwise. -/
theorem seen_once_removal_idempotent :
    (∀ (s : MessageStore) (messageId : String),
        s.messages.countP (fun m => m.id == messageId) ≤ 1 →
        (removeSeenOnceMessage (removeSeenOnceMessage s messageId).1 messageId =
            ((removeSeenOnceMessage s messageId).1, false) ∧
         ((removeSeenOnceMessage s messageId).2 = true ↔
            ∃ m ∈ s.messages, m.id = messageId ∧ m.seenOnce = true))) ∧
    (∀ (s : MessageStore) (messageId : String),
        ((removeSeenOnceMessage s messageId).2 = false →
            (removeSeenOnceMessage s messageId).1 = s) ∧
        ((removeSeenOnceMessage s messageId).2 = true →
            (removeSeenOnceMessage s messageId).1.messages.length + 1 =
              s.messages.length)) ∧
    (∀ (st : ServerState) (sid user messageId : String),
        mapGet st.connectedUsers sid = some user →
        handleSeenOnceViewed st sid messageId =
          ({ st with store := (removeSeenOnceMessage st.store messageId).1 },
           if (removeSeenOnceMessage st.store messageId).2 then
             [⟨.toAll, "message-removed", .msgId messageId⟩]
           else [])) := by
  refine ⟨?_, ?_, ?_⟩
  · intro s messageId hcount
    constructor
    · simp only [removeSeenOnceMessage]
      rw [removeSeenOnceCore_idem s.messages hcount]
    · simp only [removeSeenOnceMessage]
      exact removeSeenOnceCore_true_iff s.messages hcount
  · intro s messageId
    constructor
    · intro hr
      simp only [removeSeenOnceMessage] at hr ⊢
      rw [removeSeenOnceCore_false_eq s.messages hr]
    · intro hr
      simp only [removeSeenOnceMessage] at hr ⊢
      exact removeSeenOnceCore_true_length s.messages hr
  · intro st sid user messageId hm
    simp only [handleSeenOnceViewed, hm, removeSeenOnceMessage]
    by_cases hr : (removeSeenOnceCore st.store.messages messageId).2 = true <;> simp [hr]

def seenOnceMsg : Message :=
  { id := "m1", senderKey := "Geetha", type := "text", content := "secret",
    timestamp := "t0", seen := false, seenOnce := true }

def seenOnceState : ServerState :=
  { connectedUsers := [("s1", "Chaitanya")],
    store := { messages := [seenOnceMsg], activeConnections := ["Chaitanya", "Geetha"] } }

/-- Witness for C5: one stored seen-once message; the first removal
succeeds, the second call is a no-op returning `false`, and the handler
emits the single `message-removed` broadcast. -/
theorem seen_once_removal_idempotent_witness :
    seenOnceState.store.messages.countP (fun m => m.id == "m1") ≤ 1 ∧
    removeSeenOnceMessage (removeSeenOnceMessage seenOnceState.store "m1").1 "m1" =
      ((removeSeenOnceMessage seenOnceState.store "m1").1, false) ∧
    (removeSeenOnceMessage seenOnceState.store "m1").2 = true ∧
    mapGet seenOnceState.connectedUsers "s1" = some "Chaitanya" ∧
    handleSeenOnceViewed seenOnceState "s1" "m1" =
      ({ seenOnceState with store := (removeSeenOnceMessage seenOnceState.store "m1").1 },
       if (removeSeenOnceMessage seenOnceState.store "m1").2 then
         [⟨.toAll, "message-removed", .msgId "m1"⟩]
       else []) :=
  ⟨by decide,
   (seen_once_removal_idempotent.1 seenOnceState.store "m1" (by decide)).1,
   (seen_once_removal_idempotent.1 seenOnceState.store "m1" (by decide)).2.mpr
     ⟨seenOnceMsg, by decide, rfl, rfl⟩,
   rfl,
   seen_once_removal_idempotent.2.2 seenOnceState "s1" "Chaitanya" "m1" rfl⟩

/-! ## Claim C7 -/

/-- A content string whose decoded size `(length * 3) / 4` exceeds the 3MB
cap: 4194305 characters, one more than the cap boundary `4194304`. -/
def bigContent : String := (List.replicate 4194305 'a').asString

theorem bigContent_length : bigContent.length = 4194305 := by
  show (List.replicate 4194305 'a').length = 4194305
  exact List.length_replicate _ _

theorem bigContent_ne_empty : bigContent ≠ "" := by
  intro h
  have hlen := bigContent_length
  rw [h] at hlen
  exact absurd hlen (by decide)

theorem bigContent_truthy : strTruthy (some bigContent) = true := by
  simp [strTruthy, bigContent_ne_empty]

theorem handleMessage_voice_append (genId now : String) (st : ServerState)
    (sid user c : String) (so : Option Bool)
    (hm : mapGet st.connectedUsers sid = some user) (hc : c ≠ "") :
    handleMessage genId now st sid ⟨some "voice", some c, so⟩ =
      ({ st with store := addMessage st.store (builtMessage genId user "voice" c now so) },
       [⟨.toSelf, "message-ack", .msgId genId⟩,
        ⟨.toAll, "new-message", .msg (builtMessage genId user "voice" c now so)⟩]) := by
  simp [handleMessage, hm, strTruthy, hc, builtMessage]

/-- C7 counterexample: an oversized voice message (decoded size above the
3MB cap) from a joined sender is not rejected: the size check only runs for
kind `image`, so the message is appended to the ledger and broadcast as
`new-message`. -/
theorem oversized_voice_message_stored :
    3 * bigContent.length > 4 * (3 * 1024 * 1024) ∧
    (handleMessage "m1" "t1" stJoined "s1"
        ⟨some "voice", some bigContent, some false⟩).1.store.messages.length = 1 ∧
    (handleMessage "m1" "t1" stJoined "s1"
        ⟨some "voice", some bigContent, some false⟩).2 =
      [⟨.toSelf, "message-ack", .msgId "m1"⟩,
       ⟨.toAll, "new-message",
         .msg (builtMessage "m1" "Chaitanya" "voice" bigContent "t1" (some false))⟩] := by
  refine ⟨?_, ?_, ?_⟩
  · rw [bigContent_length]
    norm_num
  · rw [handleMessage_voice_append "m1" "t1" stJoined "s1" "Chaitanya" bigContent
      (some false) rfl bigContent_ne_empty]
    simp [addMessage, stJoined, initialStore, MAX_MESSAGES, builtMessage]
  · rw [handleMessage_voice_append "m1" "t1" stJoined "s1" "Chaitanya" bigContent
      (some false) rfl bigContent_ne_empty]

/-- C7 (amended): a joined sender's image message whose decoded size exceeds
the 3MB cap is dropped — the sender alone receives the non-fatal
`message-error` and the state (ledger included) is unchanged; voice content,
however, is never size-checked: a voice message of any size is appended and
broadcast. -/
theorem image_cap_enforced_voice_unchecked :
    (∀ (genId now : String) (st : ServerState) (sid user c : String) (so : Option Bool),
        mapGet st.connectedUsers sid = some user → c ≠ "" →
        3 * c.length > 4 * (3 * 1024 * 1024) →
        handleMessage genId now st sid ⟨some "image", some c, so⟩ =
          (st, [⟨.toSelf, "message-error", .errorMsg "Image too large (max 3MB)"⟩])) ∧
    (∀ (genId now : String) (st : ServerState) (sid user c : String) (so : Option Bool),
        mapGet st.connectedUsers sid = some user → c ≠ "" →
        handleMessage genId now st sid ⟨some "voice", some c, so⟩ =
          ({ st with store := addMessage st.store (builtMessage genId user "voice" c now so) },
           [⟨.toSelf, "message-ack", .msgId genId⟩,
            ⟨.toAll, "new-message", .msg (builtMessage genId user "voice" c now so)⟩])) := by
  constructor
  · intro genId now st sid user c so hm hc hsize
    simp [handleMessage, hm, strTruthy, hc, hsize]
  · intro genId now st sid user c so hm hc
    exact handleMessage_voice_append genId now st sid user c so hm hc

/-- Witness for C7: the oversized content, sent as an image, is rejected
with the `message-error`, state unchanged. -/
theorem image_cap_enforced_voice_unchecked_witness :
    mapGet stJoined.connectedUsers "s1" = some "Chaitanya" ∧
    bigContent ≠ "" ∧
    3 * bigContent.length > 4 * (3 * 1024 * 1024) ∧
    handleMessage "m1" "t1" stJoined "s1" ⟨some "image", some bigContent, some false⟩ =
      (stJoined, [⟨.toSelf, "message-error", .errorMsg "Image too large (max 3MB)"⟩]) :=
  ⟨rfl, bigContent_ne_empty, by rw [bigContent_length]; norm_num,
   image_cap_enforced_voice_unchecked.1 "m1" "t1" stJoined "s1" "Chaitanya" bigContent
     (some false) rfl bigContent_ne_empty (by rw [bigContent_length]; norm_num)⟩

/-! ## Claim C8 -/

def sigStub : String → String := fun _ => "sig"

def zeroExpPayload : TokenPayload :=
  { secretKey := "Chaithu143", username := "Chaitanya", iat := 0, exp := some 0 }

def decodeZeroExp : String → Option TokenPayload := fun _ => some zeroExpPayload

def zeroExpToken : Token :=
  { encodedHeader := "h", encodedPayload := "p", signature := "sig" }

/-- C8 counterexample: a correctly signed token whose payload carries the
expiry timestamp `exp = 0` — an expiry that has long passed — is accepted
and its payload returned, because the guard `payload.exp && ...` skips the
expiry comparison for a falsy (zero) `exp`. -/
theorem zero_exp_token_accepted :
    verifyToken sigStub decodeZeroExp 1700000000000 zeroExpToken = some zeroExpPayload ∧
    ∃ e, zeroExpPayload.exp = some e ∧ e * 1000 ≤ 1700000000000 :=
  ⟨by decide, 0, rfl, by decide⟩

/-- C8 (amended): `verifyToken` returns a payload only when the token's
signature equals the keyed MAC of `header ++ "." ++ payload`, the returned
payload is exactly the decoded one, any nonzero expiry timestamp it carries
has not passed, and its `secretKey` is a recognized credential; tokens with
an absent or zero `exp` field skip the expiry comparison. -/
theorem verifyToken_accepts_only_checked :
    ∀ (signFn : String → String) (decodePayload : String → Option TokenPayload)
      (now : Nat) (t : Token) (payload : TokenPayload),
      verifyToken signFn decodePayload now t = some payload →
      (t.signature = signFn (t.encodedHeader ++ "." ++ t.encodedPayload) ∧
       decodePayload t.encodedPayload = some payload ∧
       (∀ e, payload.exp = some e → e ≠ 0 → now < e * 1000) ∧
       validateSecretKey payload.secretKey = true) := by
  intro signFn decodePayload now t payload hv
  unfold verifyToken at hv
  by_cases hsig : t.signature = signFn (t.encodedHeader ++ "." ++ t.encodedPayload)
  · cases hd : decodePayload t.encodedPayload with
    | none => simp [hsig, hd] at hv
    | some p =>
        simp only [hsig, hd, ne_eq, not_true_eq_false, if_false] at hv
        by_cases hexp : expTruthy p.exp = true ∧ (p.exp.getD 0) * 1000 ≤ now
        · simp [hexp] at hv
        · by_cases hkey : validateSecretKey p.secretKey = true
          · simp only [hexp, if_false, hkey, Bool.not_true, Bool.false_eq_true] at hv
            cases hv
            refine ⟨hsig, rfl, ?_, hkey⟩
            intro e he hne
            by_contra hlt
            refine hexp ⟨by simp [expTruthy, he, hne], ?_⟩
            rw [he, Option.getD_some]
            omega
          · simp [hexp, hkey] at hv
  · simp [hsig] at hv

def validPayload : TokenPayload :=
  { secretKey := "Geethu143", username := "Geetha", iat := 0, exp := some 2000000000 }

def decodeValid : String → Option TokenPayload := fun _ => some validPayload

/-- Witness for C8: a concrete accepting run — correct signature, unexpired
nonzero `exp`, recognized credential — from which the amended theorem
recovers all three checks. -/
theorem verifyToken_accepts_only_checked_witness :
    verifyToken sigStub decodeValid 1700000000000 zeroExpToken = some validPayload ∧
    (zeroExpToken.signature =
        sigStub (zeroExpToken.encodedHeader ++ "." ++ zeroExpToken.encodedPayload) ∧
      decodeValid zeroExpToken.encodedPayload = some validPayload ∧
      (∀ e, validPayload.exp = some e → e ≠ 0 → 1700000000000 < e * 1000) ∧
      validateSecretKey validPayload.secretKey = true) :=
  ⟨by decide,
   verifyToken_accepts_only_checked sigStub decodeValid 1700000000000 zeroExpToken
     validPayload (by decide)⟩

end PrivateChat
